import Mathlib

/-!
# The Prometheus-to-point translator (`backend/writer.go`)

A shallow embedding of `MetricWriter` and its methods `Write`, `writeMetrics`,
`buildMetricName`, `buildTagName`, `buildTags` and `HealthCheck`, followed by theorems
about them.

Modelling decisions

* Go `string`s are Lean `String`s.  The only bytes the code inspects (`_`, `"`, `*`) are
  ASCII, so the byte-wise replacements of the Go library act on the characters of a
  valid UTF-8 string one by one.
* A Go `map[string]string` is a `GoMap`: a list of entries with pairwise different keys.
  Go leaves the iteration order of a map unspecified; the list order plays that role and
  every statement about the content of a map goes through `GoMap.get?`.
* A `float64` is its IEEE-754 bit pattern; the code only tests it for NaN and hands it on.
* The sender is an external collaborator.  Its answer to a call may depend on the call and
  on all calls made before it; the calls and the warnings logged are recorded in `Effects`.
  The sender is assumed not to modify the tag map it is handed.
* The debug line `dropping empty tag` is not recorded (no statement below is about it).
* The clock is an input: `HealthCheck` takes the value of `time.Now().Unix()` as `now`.
* The fields `metricsSent`, `numErrors` and `errorRate` are never read or written by the
  methods modelled here and are left out.
-/

namespace Backend

/-! ## Go values -/

/-- A Go `float64`, represented by its IEEE-754 binary64 bit pattern. -/
structure Float64 where
  bits : Nat
deriving DecidableEq, Repr

/-- Go `math.IsNaN` (`f != f`): the exponent field is all ones and the fraction is not zero. -/
def Float64.isNaN (f : Float64) : Bool :=
  (f.bits / 2 ^ 52) % 2 ^ 11 == 2047 && f.bits % 2 ^ 52 != 0

/-- Go `strings.Replace(s, old, new, -1)` for one-character `old` and `new`:
every occurrence of `old` becomes `new`, all other characters stay. -/
def stringsReplace (s : String) (old new : Char) : String :=
  String.mk (s.data.map (fun c => if c = old then new else c))

/-- A Go `strings.Replacer` all of whose old strings are one character long
(`byteStringReplacer` in the Go library): the pairs in argument order. -/
structure Replacer where
  oldnew : List (Char × String)

/-- The replacement registered for character `c`: the first pair whose old string is `c`
(in Go the first occurrence of an old string takes precedence). -/
def Replacer.find (c : Char) : List (Char × String) → Option String
  | [] => none
  | p :: ps => if p.1 = c then some p.2 else Replacer.find c ps

/-- Go `(*Replacer).Replace`: each character that has a replacement is replaced by it,
every other character is copied. -/
def Replacer.Replace (r : Replacer) (s : String) : String :=
  String.mk (s.data.flatMap (fun c =>
    match Replacer.find c r.oldnew with
    | some n => n.data
    | none => [c]))

/-! ## Go maps -/

/-- The value of the first entry with key `k`. -/
def lookup (k : String) : List (String × String) → Option String
  | [] => none
  | e :: es => if e.1 = k then some e.2 else lookup k es

/-- The entries whose key is not `k`. -/
def removeKey (k : String) (es : List (String × String)) : List (String × String) :=
  es.filter (fun e => decide (e.1 ≠ k))

/-- A Go `map[string]string`: entries with pairwise different keys. -/
structure GoMap where
  entries : List (String × String)
  nodup : (entries.map Prod.fst).Nodup

namespace GoMap

/-- The map `make(map[string]string)`. -/
def empty : GoMap := ⟨[], List.nodup_nil⟩

/-- The lookup `v, ok := m[k]`: `some v` when `ok`, `none` otherwise. -/
def get? (m : GoMap) (k : String) : Option String := lookup k m.entries

/-- The statement `delete(m, k)`. -/
def delete (m : GoMap) (k : String) : GoMap :=
  ⟨removeKey k m.entries,
    List.Nodup.sublist (List.Sublist.map Prod.fst (List.filter_sublist m.entries)) m.nodup⟩

/-- The statement `m[k] = v`. -/
def set (m : GoMap) (k v : String) : GoMap :=
  ⟨(k, v) :: removeKey k m.entries,
    List.nodup_cons.mpr ⟨by simp [removeKey],
      List.Nodup.sublist (List.Sublist.map Prod.fst (List.filter_sublist m.entries)) m.nodup⟩⟩

/-- The map holding the given entries, written in order (a later entry overwrites an
earlier one with the same key). -/
def ofList (es : List (String × String)) : GoMap :=
  es.foldl (fun m e => m.set e.1 e.2) empty

end GoMap

/-! ## The data model of `prompb` and of the writer -/

/-- A `prompb.Label`. -/
structure Label where
  name : String
  value : String
deriving DecidableEq

/-- A `prompb.Sample`. -/
structure Sample where
  value : Float64
  timestamp : Int
deriving DecidableEq

/-- A `prompb.TimeSeries`. -/
structure TimeSeries where
  labels : List Label
  samples : List Sample

/-- A `prompb.WriteRequest`. -/
structure WriteRequest where
  timeseries : List TimeSeries

/-- The arguments of one `SendMetric` call. -/
structure Call where
  name : String
  value : Float64
  timestamp : Int
  source : String
  tags : GoMap

/-- A `senders.Sender`: `sendMetric history call` is the error (`some reason`) or the
success (`none`) the sender answers to `call` after the calls in `history`. -/
structure Sender where
  sendMetric : List Call → Call → Option String

/-- What a run does to the outside: the calls submitted to the sender, in order, and the
warnings logged, in order. -/
structure Effects where
  calls : List Call
  warnings : List String

/-- The run that has done nothing yet. -/
def Effects.none : Effects := ⟨[], []⟩

/-- The struct `MetricWriter` (`pfx` is the field `prefix`). -/
structure MetricWriter where
  pfx : String
  tags : GoMap
  sender : Sender
  convertPaths : Bool

/-- The variable `tagValueReplacer`: `strings.NewReplacer("\"", "\\\"", "*", "-")`. -/
def tagValueReplacer : Replacer := ⟨[('"', "\\\""), ('*', "-")]⟩

namespace MetricWriter

/-- The method `buildMetricName`. -/
def buildMetricName (w : MetricWriter) (name : String) : String :=
  let name := if w.pfx ≠ "" then w.pfx ++ "_" ++ name else name
  let name := if w.convertPaths then stringsReplace name '_' '.' else name
  name

/-- The method `buildTagName`. -/
def buildTagName (w : MetricWriter) (name : String) : String :=
  if name ≠ "__name__" ∧ w.convertPaths then stringsReplace name '_' '.' else name

/-- The method `buildTags`.  It changes the map it is given and returns that same map:
the second component is both the returned map and the new content of `mTags`. -/
def buildTags (w : MetricWriter) (mTags : GoMap) : String × GoMap :=
  -- Remove all empty tags.
  let mTags := mTags.entries.foldl (fun m e => if e.2 = "" then m.delete e.1 else m) mTags
  let (source, mTags) :=
    match mTags.get? "instance" with
    | some val => (val, mTags.delete "instance")
    | none => ("", mTags)
  -- Add optional tags
  let mTags := w.tags.entries.foldl (fun m e => m.set e.1 e.2) mTags
  (tagValueReplacer.Replace source, mTags)

/-- The state of the sample loop of `writeMetrics`: the content of the map `tags` and the
effects so far. -/
structure LoopState where
  tags : GoMap
  fx : Effects

/-- One round of the sample loop of `writeMetrics`. -/
def sendSample (w : MetricWriter) (fieldName : String) (st : LoopState) (value : Sample) :
    LoopState :=
  if value.value.isNaN then st
  else
    let (source, finalTags) := w.buildTags st.tags
    let call : Call := ⟨fieldName, value.value, value.timestamp, source, finalTags⟩
    let warnings :=
      match w.sender.sendMetric st.fx.calls call with
      | some err =>
        st.fx.warnings ++
          ["Cannot send metric: " ++ fieldName ++ ". Reason: " ++ err ++ ". Skipping to next"]
      | none => st.fx.warnings
    ⟨finalTags, ⟨st.fx.calls ++ [call], warnings⟩⟩

/-- The method `writeMetrics`, from the effects `fx` so far to the effects after it. -/
def writeMetrics (w : MetricWriter) (fx : Effects) (ts : TimeSeries) : Effects :=
  let tags := ts.labels.foldl (fun tags l => tags.set (w.buildTagName l.name) l.value) GoMap.empty
  let fieldName := w.buildMetricName ((tags.get? "__name__").getD "")
  let tags := tags.delete "__name__"
  (ts.samples.foldl (w.sendSample fieldName) ⟨tags, fx⟩).fx

/-- The method `Write`, from the effects `fx` so far to the effects after it. -/
def Write (w : MetricWriter) (fx : Effects) (rq : WriteRequest) : Effects :=
  rq.timeseries.foldl w.writeMetrics fx

/-- The method `HealthCheck`, with `now` for the value of `time.Now().Unix()`: the status
and the message it returns, and the effects after it. -/
def HealthCheck (w : MetricWriter) (now : Int) (fx : Effects) : (Int × String) × Effects :=
  let tags := GoMap.ofList [("test", "test")]
  let call : Call := ⟨"prom.gateway.healthcheck", ⟨0⟩, now, "", tags⟩
  match w.sender.sendMetric fx.calls call with
  | some err => ((503, err), ⟨fx.calls ++ [call], fx.warnings⟩)
  | none => ((200, "OK"), ⟨fx.calls ++ [call], fx.warnings⟩)

end MetricWriter

/-- The calls submitted between two states of a run: those of `after` that come after the
calls of `before`. -/
def submitted (before after : Effects) : List Call :=
  after.calls.drop before.calls.length

/-! ## The content of a map as a function

Two Go maps hold the same tags when they answer every lookup alike.  The definitions
below describe map contents as functions from tag names to optional values. -/

/-- The content of a tag set: the value of each tag name, if any. -/
abbrev TagFn := String → Option String

/-- The content without the entry for `key`. -/
def TagFn.remove (key : String) (f : TagFn) : TagFn :=
  fun k => if k = key then none else f k

/-- The content without the entries whose value is the empty string. -/
def TagFn.removeEmpty (f : TagFn) : TagFn :=
  fun k => if f k = some "" then none else f k

/-- The content `f` overlaid with `static`: an entry of `static` replaces the entry of `f`
with the same name. -/
def TagFn.overlay (static f : TagFn) : TagFn :=
  fun k => match static k with
    | some v => some v
    | none => f k

/-- The content with `name` set to `value`. -/
def TagFn.insert (name value : String) (f : TagFn) : TagFn :=
  fun k => if k = name then some value else f k

/-- Tag finalization on contents: drop the empty values, drop `instance`, overlay the
static tags. -/
def TagFn.finalize (static f : TagFn) : TagFn :=
  TagFn.overlay static (TagFn.remove "instance" (TagFn.removeEmpty f))

/-- The calls the sample loop of `writeMetrics` submits when it starts with the map
`tags`, listed without reference to the sender. -/
def loopCalls (w : MetricWriter) (fieldName : String) : GoMap → List Sample → List Call
  | _, [] => []
  | tags, value :: rest =>
    if value.value.isNaN then loopCalls w fieldName tags rest
    else
      ⟨fieldName, value.value, value.timestamp, (w.buildTags tags).1, (w.buildTags tags).2⟩ ::
        loopCalls w fieldName (w.buildTags tags).2 rest

/-- The map `tags` of `writeMetrics` after the label loop. -/
def labelTags (w : MetricWriter) (labels : List Label) : GoMap :=
  labels.foldl (fun tags l => tags.set (w.buildTagName l.name) l.value) GoMap.empty

/-- The calls `writeMetrics` submits for a series, listed without reference to the sender. -/
def seriesCalls (w : MetricWriter) (ts : TimeSeries) : List Call :=
  loopCalls w (w.buildMetricName (((labelTags w ts.labels).get? "__name__").getD ""))
    ((labelTags w ts.labels).delete "__name__") ts.samples

/-! ## The wording of the specification -/

/-- The name transformation of the specification: every underscore becomes a dot when
`convertPaths` is on and the name is not `__name__`; otherwise the name is kept. -/
def specTransform (convertPaths : Bool) (name : String) : String :=
  if convertPaths = true ∧ name ≠ "__name__" then stringsReplace name '_' '.' else name

/-- The content obtained from the empty mapping by inserting `transform(name) -> value`
for each label in label order. -/
def specLabelContent (convertPaths : Bool) (labels : List Label) : TagFn :=
  labels.foldl (fun f l => TagFn.insert (specTransform convertPaths l.name) l.value f)
    (fun _ => none)

/-- The reference mapping of the specification for the tags of a series. -/
def referenceTags (w : MetricWriter) (labels : List Label) : TagFn :=
  TagFn.overlay w.tags.get?
    (TagFn.remove "instance"
      (TagFn.removeEmpty
        (TagFn.remove "__name__" (specLabelContent w.convertPaths labels))))

/-- The base name of a series: the value of its label `__name__` (of the last one, should
the list hold several), the empty string when there is none. -/
def baseName (labels : List Label) : String :=
  labels.foldl (fun b l => if l.name = "__name__" then l.value else b) ""

/-- The metric name of the specification for base name `b`. -/
def specMetricName (pfx : String) (convertPaths : Bool) (b : String) : String :=
  let joined := if pfx = "" then b else pfx ++ "_" ++ b
  if convertPaths = true then stringsReplace joined '_' '.' else joined

/-- The escaping of one character of a source: backslash and double quote for a double
quote, a hyphen for an asterisk, the character itself otherwise. -/
def specEscapeChar (c : Char) : List Char :=
  if c = '"' then ['\\', '"'] else if c = '*' then ['-'] else [c]

/-- The escaped form of a source value: its characters escaped one by one, in order. -/
def specEscape (s : String) : String :=
  String.mk (s.data.flatMap specEscapeChar)

/-- The sample a call carries: its value and its timestamp. -/
def Call.sample (c : Call) : Sample := ⟨c.value, c.timestamp⟩

/-- The samples of a list whose value is not NaN, in order. -/
def nonNaN (samples : List Sample) : List Sample :=
  samples.filter (fun s => !s.value.isNaN)

/-! ## The concrete scenario of the specification -/

/-- A sender that accepts every call. -/
def okSender : Sender := ⟨fun _ _ => none⟩

/-- The writer of the scenario: name head `myapp`, static tags `{env: prod}`,
`convertPaths` on. -/
def scenarioWriter : MetricWriter :=
  ⟨"myapp", GoMap.ofList [("env", "prod")], okSender, true⟩

/-- The labels of the scenario. -/
def scenarioLabels : List Label :=
  [⟨"__name__", "http_requests_total"⟩, ⟨"method", "GET"⟩, ⟨"instance", "10.0.0.1:9100"⟩,
    ⟨"empty_tag", ""⟩]

/-- The `float64` 42.0. -/
def f42 : Float64 := ⟨0x4045000000000000⟩

/-- The series of the scenario: one sample `(42.0, 1000)`. -/
def scenarioSeries : TimeSeries := ⟨scenarioLabels, [⟨f42, 1000⟩]⟩

/-- The `float64` that Go's `math.NaN()` returns. -/
def fNaN : Float64 := ⟨0x7FF8000000000001⟩

/-- A request of two series with the labels of the scenario: the first with a NaN sample
between two samples of value 42.0, the second with a NaN sample only. -/
def nanRequest : WriteRequest :=
  ⟨[⟨scenarioLabels, [⟨f42, 1000⟩, ⟨fNaN, 1001⟩, ⟨f42, 1002⟩]⟩, ⟨scenarioLabels, [⟨fNaN, 1003⟩]⟩]⟩

/-! ## Further concrete inputs -/

/-- A writer with an empty name head, the given static tags and `convertPaths` off. -/
def staticWriter (static : List (String × String)) : MetricWriter :=
  ⟨"", GoMap.ofList static, okSender, false⟩

/-- A series with the given labels and the one sample `(42.0, 1000)`. -/
def oneSampleSeries (labels : List Label) : TimeSeries := ⟨labels, [⟨f42, 1000⟩]⟩

/-- A series named `up` of instance `h` with two samples that are not NaN. -/
def twoSampleSeries : TimeSeries :=
  ⟨[⟨"__name__", "up"⟩, ⟨"instance", "h"⟩], [⟨f42, 1⟩, ⟨f42, 2⟩]⟩

/-- The writer `w` with `convertPaths` switched off. -/
def MetricWriter.withoutConvertPaths (w : MetricWriter) : MetricWriter :=
  ⟨w.pfx, w.tags, w.sender, false⟩

/-- The writer `w` with another sender. -/
def MetricWriter.withSender (w : MetricWriter) (sender : Sender) : MetricWriter :=
  ⟨w.pfx, w.tags, sender, w.convertPaths⟩

/-- A character of a converted name against the character of the plain name at the same
place: a dot where the plain name has an underscore, the same character elsewhere. -/
def dotForUnderscore (converted plain : Char) : Prop :=
  converted = if plain = '_' then '.' else plain

/-- A writer with `convertPaths` on, no name head and the static tag `data_center = eu`. -/
def dataCenterWriter : MetricWriter :=
  ⟨"", GoMap.ofList [("data_center", "eu")], okSender, true⟩

/-- A writer with `convertPaths` on, the name head `my_app` and no static tags. -/
def myAppWriter : MetricWriter := ⟨"my_app", GoMap.empty, okSender, true⟩

/-- A sender that refuses every call with the reason `down`. -/
def failSender : Sender := ⟨fun _ _ => some "down"⟩

/-- The point of the health check at time `now`. -/
def healthProbe (now : Int) : Call :=
  ⟨"prom.gateway.healthcheck", ⟨0⟩, now, "", GoMap.ofList [("test", "test")]⟩

/-- A request of one series with the labels of the scenario and the sample `(42.0, 7)`. -/
def tailRequest : WriteRequest := ⟨[⟨scenarioLabels, [⟨f42, 7⟩]⟩]⟩

/-- Every double quote of the list comes right after a backslash; `prev` is the character
before the list, if any. -/
def quotesPreceded (prev : Option Char) : List Char → Bool
  | [] => true
  | c :: cs => (c != '"' || prev == some '\\') && quotesPreceded (some c) cs

/-- The sources the specification of the code gives the calls of a series whose label
loop leaves `instance` with the value `v`: the escaped `v` for the first sample that is
not NaN, the empty string for every later one. -/
def firstSourceThenEmpty (v : String) : List Sample → List (Sample × String)
  | [] => []
  | s :: rest => (s, specEscape v) :: rest.map (fun s => (s, ""))

/-- A series with the label `instance = a*b"c` and two samples that are not NaN. -/
def quotedSeries : TimeSeries := ⟨[⟨"instance", "a*b\"c"⟩], [⟨f42, 1⟩, ⟨f42, 2⟩]⟩

/-! ## Lookups in maps -/

theorem lookup_removeKey (k k' : String) (es : List (String × String)) :
    lookup k' (removeKey k es) = if k' = k then none else lookup k' es := by
  induction es with
  | nil => simp [removeKey, lookup]
  | cons e es ih =>
    simp only [removeKey, ne_eq, decide_not] at ih ⊢
    by_cases h : e.1 = k
    · by_cases h' : k' = k
      · subst h'
        simpa [List.filter_cons, h] using ih
      · have : ¬ k = k' := fun h'' => h' h''.symm
        simp [List.filter_cons, h, ih, h', lookup, this]
    · by_cases h' : e.1 = k'
      · have : ¬ k' = k := fun h'' => h (h'.trans h'')
        simp [List.filter_cons, h, lookup, h', this]
      · simp [List.filter_cons, h, lookup, h', ih]

theorem GoMap.get?_empty (k : String) : GoMap.empty.get? k = none := rfl

theorem GoMap.get?_delete (m : GoMap) (k k' : String) :
    (m.delete k).get? k' = if k' = k then none else m.get? k' := by
  simp [GoMap.get?, GoMap.delete, lookup_removeKey]

theorem GoMap.get?_set (m : GoMap) (k v k' : String) :
    (m.set k v).get? k' = if k' = k then some v else m.get? k' := by
  by_cases h : k' = k
  · simp [GoMap.get?, GoMap.set, lookup, h]
  · have : ¬ k = k' := fun h' => h h'.symm
    simp [GoMap.get?, GoMap.set, lookup, h, this, lookup_removeKey]

theorem lookup_eq_none_of_not_mem (k : String) (es : List (String × String))
    (h : k ∉ es.map Prod.fst) : lookup k es = none := by
  induction es with
  | nil => rfl
  | cons e es ih =>
    simp only [List.map_cons, List.mem_cons, not_or] at h
    have : ¬ e.1 = k := fun h' => h.1 h'.symm
    simp [lookup, this, ih h.2]

theorem lookup_of_mem (es : List (String × String)) (hn : (es.map Prod.fst).Nodup)
    (k v : String) (h : (k, v) ∈ es) : lookup k es = some v := by
  induction es with
  | nil => simp at h
  | cons e es ih =>
    simp only [List.map_cons, List.nodup_cons] at hn
    rcases List.mem_cons.mp h with h | h
    · simp [lookup, ← h]
    · have hk : k ∈ es.map Prod.fst := List.mem_map.mpr ⟨(k, v), h, rfl⟩
      have : ¬ e.1 = k := fun h' => hn.1 (h' ▸ hk)
      simp [lookup, this, ih hn.2 h]

theorem mem_of_lookup (es : List (String × String)) (k v : String)
    (h : lookup k es = some v) : (k, v) ∈ es := by
  induction es with
  | nil => simp [lookup] at h
  | cons e es ih =>
    by_cases hk : e.1 = k
    · simp only [lookup, hk, if_true, Option.some.injEq] at h
      exact List.mem_cons.mpr (Or.inl (by rw [← hk, ← h]))
    · simp only [lookup, hk, if_false] at h
      exact List.mem_cons_of_mem _ (ih h)

/-! ## The loops of `buildTags` -/

theorem get?_dropEmpty_fold (l : List (String × String)) (a : GoMap) (k : String) :
    (l.foldl (fun m e => if e.2 = "" then m.delete e.1 else m) a).get? k
      = if (k, "") ∈ l then none else a.get? k := by
  induction l generalizing a with
  | nil => simp
  | cons e l ih =>
    rw [List.foldl_cons, ih]
    by_cases hl : (k, "") ∈ l
    · simp [hl]
    · by_cases he : e.2 = ""
      · by_cases hk : k = e.1
        · subst hk
          have : (e.1, "") = e := Prod.ext rfl he.symm
          simp [he, GoMap.get?_delete, this]
        · have : ¬ (k, "") = e := fun h => hk (by rw [← h])
          simp [hl, he, GoMap.get?_delete, hk, this]
      · have : ¬ (k, "") = e := fun h => he (by rw [← h])
        simp [hl, he, this]

theorem get?_dropEmpty (m : GoMap) :
    (m.entries.foldl (fun m e => if e.2 = "" then m.delete e.1 else m) m).get?
      = TagFn.removeEmpty m.get? := by
  funext k
  rw [get?_dropEmpty_fold]
  unfold TagFn.removeEmpty
  by_cases h : (k, "") ∈ m.entries
  · simp [h, GoMap.get?, lookup_of_mem m.entries m.nodup k "" h]
  · have : ¬ m.get? k = some "" := fun h' => h (mem_of_lookup m.entries k "" h')
    simp [h, this]

theorem get?_overlay_fold (l : List (String × String)) (hn : (l.map Prod.fst).Nodup)
    (a : GoMap) :
    (l.foldl (fun m e => m.set e.1 e.2) a).get? = TagFn.overlay (lookup · l) a.get? := by
  induction l generalizing a with
  | nil => funext k; simp [TagFn.overlay, lookup]
  | cons e l ih =>
    simp only [List.map_cons, List.nodup_cons] at hn
    rw [List.foldl_cons, ih hn.2]
    funext k
    by_cases hk : k = e.1
    · subst hk
      have hnone : lookup e.1 l = none := lookup_eq_none_of_not_mem e.1 l hn.1
      simp [TagFn.overlay, lookup, hnone, GoMap.get?_set]
    · have : ¬ e.1 = k := fun h => hk h.symm
      simp [TagFn.overlay, lookup, GoMap.get?_set, hk, this]

/-- The map `buildTags` returns holds the finalized content of the map it was given. -/
theorem buildTags_get? (w : MetricWriter) (m : GoMap) :
    (w.buildTags m).2.get? = TagFn.finalize w.tags.get? m.get? := by
  have hstatic : (fun k => lookup k w.tags.entries) = w.tags.get? := rfl
  unfold MetricWriter.buildTags
  simp only
  split
  next val hval =>
    rw [get?_overlay_fold _ w.tags.nodup, hstatic]
    funext k
    simp [TagFn.finalize, TagFn.overlay, GoMap.get?_delete, TagFn.remove, get?_dropEmpty]
  next hnone =>
    rw [get?_overlay_fold _ w.tags.nodup, hstatic]
    rw [get?_dropEmpty] at hnone ⊢
    funext k
    by_cases hk : k = "instance"
    · subst hk
      simp [TagFn.finalize, TagFn.overlay, TagFn.remove, hnone]
    · simp [TagFn.finalize, TagFn.overlay, TagFn.remove, hk]

/-- The source `buildTags` returns is the escaped `instance` entry that survives the
removal of empty values, and the escaped empty string when there is none. -/
theorem buildTags_source (w : MetricWriter) (m : GoMap) :
    (w.buildTags m).1
      = tagValueReplacer.Replace ((TagFn.removeEmpty m.get? "instance").getD "") := by
  unfold MetricWriter.buildTags
  simp only
  split
  next val hval =>
    rw [get?_dropEmpty] at hval
    simp [hval]
  next hnone =>
    rw [get?_dropEmpty] at hnone
    simp [hnone]

/-- Finalizing a finalized content changes nothing. -/
theorem finalize_idem (s f : TagFn) :
    TagFn.finalize s (TagFn.finalize s f) = TagFn.finalize s f := by
  funext k
  simp only [TagFn.finalize, TagFn.overlay, TagFn.remove, TagFn.removeEmpty]
  cases hs : s k with
  | some v => rfl
  | none =>
    by_cases hk : k = "instance"
    · simp [hk]
    · by_cases hf : f k = some ""
      · simp [hk, hf, hs]
      · simp [hk, hf, hs]

/-- A finalized content has an empty value only where the static tags have it. -/
theorem finalize_empty_value (s f : TagFn) (k : String)
    (h : TagFn.overlay s (TagFn.remove "instance" (TagFn.removeEmpty f)) k = some "") :
    s k = some "" := by
  simp only [TagFn.overlay, TagFn.remove, TagFn.removeEmpty] at h
  cases hs : s k with
  | some v =>
    rw [hs] at h
    simpa using h
  | none =>
    rw [hs] at h
    by_cases hi : k = "instance"
    · simp [hi] at h
    · by_cases hf : f k = some ""
      · simp [hi, hf] at h
      · simp [hi, hf] at h

/-! ## The loops of `writeMetrics` and `Write` -/

theorem foldl_sendSample_calls (w : MetricWriter) (fieldName : String) (samples : List Sample)
    (tags : GoMap) (fx : Effects) :
    (samples.foldl (w.sendSample fieldName) ⟨tags, fx⟩).fx.calls
      = fx.calls ++ loopCalls w fieldName tags samples := by
  induction samples generalizing tags fx with
  | nil => simp [loopCalls]
  | cons value rest ih =>
    rw [List.foldl_cons]
    by_cases hnan : value.value.isNaN = true
    · simp [MetricWriter.sendSample, loopCalls, hnan, ih]
    · simp [MetricWriter.sendSample, loopCalls, hnan, ih]

theorem writeMetrics_calls (w : MetricWriter) (fx : Effects) (ts : TimeSeries) :
    (w.writeMetrics fx ts).calls = fx.calls ++ seriesCalls w ts := by
  simp [MetricWriter.writeMetrics, seriesCalls, labelTags, foldl_sendSample_calls]

theorem submitted_writeMetrics (w : MetricWriter) (fx : Effects) (ts : TimeSeries) :
    submitted fx (w.writeMetrics fx ts) = seriesCalls w ts := by
  simp [submitted, writeMetrics_calls]

theorem foldl_writeMetrics_calls (w : MetricWriter) (series : List TimeSeries) (fx : Effects) :
    (series.foldl w.writeMetrics fx).calls = fx.calls ++ series.flatMap (seriesCalls w) := by
  induction series generalizing fx with
  | nil => simp
  | cons ts rest ih => simp [List.foldl_cons, ih, writeMetrics_calls]

theorem submitted_Write (w : MetricWriter) (fx : Effects) (rq : WriteRequest) :
    submitted fx (w.Write fx rq) = rq.timeseries.flatMap (seriesCalls w) := by
  simp [submitted, MetricWriter.Write, foldl_writeMetrics_calls]

theorem loopCalls_values (w : MetricWriter) (fieldName : String) (tags : GoMap)
    (samples : List Sample) :
    (loopCalls w fieldName tags samples).map (fun c => (c.value, c.timestamp))
      = (samples.filter (fun s => !s.value.isNaN)).map (fun s => (s.value, s.timestamp)) := by
  induction samples generalizing tags with
  | nil => simp [loopCalls]
  | cons value rest ih =>
    by_cases hnan : value.value.isNaN = true
    · simp [loopCalls, hnan, ih]
    · simp [loopCalls, hnan, ih]

theorem loopCalls_name (w : MetricWriter) (fieldName : String) (tags : GoMap)
    (samples : List Sample) (c : Call) (hc : c ∈ loopCalls w fieldName tags samples) :
    c.name = fieldName := by
  induction samples generalizing tags with
  | nil => simp [loopCalls] at hc
  | cons value rest ih =>
    by_cases hnan : value.value.isNaN = true
    · simp only [loopCalls, hnan, if_true] at hc
      exact ih tags hc
    · simp only [loopCalls, hnan, Bool.false_eq_true, if_false, List.mem_cons] at hc
      rcases hc with hc | hc
      · rw [hc]
      · exact ih _ hc

theorem loopCalls_tags (w : MetricWriter) (fieldName : String) (tags : GoMap)
    (samples : List Sample) (c : Call) (hc : c ∈ loopCalls w fieldName tags samples) :
    c.tags.get? = TagFn.finalize w.tags.get? tags.get? := by
  induction samples generalizing tags with
  | nil => simp [loopCalls] at hc
  | cons value rest ih =>
    by_cases hnan : value.value.isNaN = true
    · simp only [loopCalls, hnan, if_true] at hc
      exact ih tags hc
    · simp only [loopCalls, hnan, Bool.false_eq_true, if_false, List.mem_cons] at hc
      rcases hc with hc | hc
      · rw [hc]
        exact buildTags_get? w tags
      · rw [ih _ hc, buildTags_get?, finalize_idem]

/-! ## The label loop of `writeMetrics` -/

theorem buildTagName_eq (w : MetricWriter) (name : String) :
    w.buildTagName name = specTransform w.convertPaths name := by
  unfold MetricWriter.buildTagName specTransform
  by_cases h1 : name = "__name__" <;> by_cases h2 : w.convertPaths = true <;> simp [h1, h2]

theorem foldl_set_get? (w : MetricWriter) (labels : List Label) (a : GoMap) :
    (labels.foldl (fun tags l => tags.set (w.buildTagName l.name) l.value) a).get?
      = labels.foldl
          (fun f l => TagFn.insert (specTransform w.convertPaths l.name) l.value f) a.get? := by
  induction labels generalizing a with
  | nil => rfl
  | cons l rest ih =>
    rw [List.foldl_cons, List.foldl_cons, ih]
    congr 1
    funext k
    simp [GoMap.get?_set, TagFn.insert, buildTagName_eq]

theorem labelTags_get? (w : MetricWriter) (labels : List Label) :
    (labelTags w labels).get? = specLabelContent w.convertPaths labels := by
  unfold labelTags specLabelContent
  rw [foldl_set_get?]
  rfl

theorem stringsReplace_ne_name (n : String) : stringsReplace n '_' '.' ≠ "__name__" := by
  intro h
  have hd := congrArg String.data h
  simp only [stringsReplace] at hd
  cases hn : n.data with
  | nil => rw [hn] at hd; simp at hd
  | cons c cs =>
    rw [hn] at hd
    have hc : (if c = '_' then '.' else c) = '_' := by
      have := congrArg List.head? hd
      simpa using this
    by_cases hu : c = '_'
    · rw [if_pos hu] at hc; exact absurd hc (by decide)
    · rw [if_neg hu] at hc; exact hu hc

theorem specTransform_eq_name_iff (cp : Bool) (n : String) :
    specTransform cp n = "__name__" ↔ n = "__name__" := by
  unfold specTransform
  by_cases h : cp = true ∧ n ≠ "__name__"
  · rw [if_pos h]
    exact ⟨fun h' => absurd h' (stringsReplace_ne_name n), fun h' => absurd h' h.2⟩
  · rw [if_neg h]

theorem foldl_insert_name (cp : Bool) (labels : List Label) (f : TagFn) :
    ((labels.foldl (fun f l => TagFn.insert (specTransform cp l.name) l.value f) f)
        "__name__").getD ""
      = labels.foldl (fun b l => if l.name = "__name__" then l.value else b)
          ((f "__name__").getD "") := by
  induction labels generalizing f with
  | nil => rfl
  | cons l rest ih =>
    rw [List.foldl_cons, List.foldl_cons, ih]
    congr 1
    by_cases h : l.name = "__name__"
    · have : specTransform cp "__name__" = "__name__" :=
        (specTransform_eq_name_iff cp "__name__").mpr rfl
      simp [TagFn.insert, h, this]
    · have : ¬ "__name__" = specTransform cp l.name :=
        fun h' => h ((specTransform_eq_name_iff cp l.name).mp h'.symm)
      simp [TagFn.insert, h, this]

theorem labelTags_name (w : MetricWriter) (labels : List Label) :
    ((labelTags w labels).get? "__name__").getD "" = baseName labels := by
  rw [labelTags_get?]
  exact foldl_insert_name w.convertPaths labels (fun _ => none)

theorem buildMetricName_eq (w : MetricWriter) (b : String) :
    w.buildMetricName b = specMetricName w.pfx w.convertPaths b := by
  unfold MetricWriter.buildMetricName specMetricName
  by_cases h1 : w.pfx = "" <;> by_cases h2 : w.convertPaths = true <;> simp [h1, h2]

theorem seriesCalls_name (w : MetricWriter) (ts : TimeSeries) (c : Call)
    (hc : c ∈ seriesCalls w ts) :
    c.name = specMetricName w.pfx w.convertPaths (baseName ts.labels) := by
  rw [loopCalls_name _ _ _ _ c hc, labelTags_name, buildMetricName_eq]

theorem seriesCalls_tags (w : MetricWriter) (ts : TimeSeries) (c : Call)
    (hc : c ∈ seriesCalls w ts) :
    c.tags.get? = referenceTags w ts.labels := by
  rw [loopCalls_tags _ _ _ _ c hc]
  unfold referenceTags TagFn.finalize
  rw [← labelTags_get?]
  have hdel : ((labelTags w ts.labels).delete "__name__").get?
      = TagFn.remove "__name__" (labelTags w ts.labels).get? := by
    funext k
    simp [GoMap.get?_delete, TagFn.remove]
  rw [hdel]

theorem seriesCalls_sample (w : MetricWriter) (ts : TimeSeries) :
    (seriesCalls w ts).map Call.sample = nonNaN ts.samples := by
  have h := loopCalls_values w
    (w.buildMetricName (((labelTags w ts.labels).get? "__name__").getD ""))
    ((labelTags w ts.labels).delete "__name__") ts.samples
  have hmap := congrArg (List.map (fun p : Float64 × Int => (⟨p.1, p.2⟩ : Sample))) h
  simpa [seriesCalls, nonNaN, Call.sample, List.map_map, Function.comp_def] using hmap

/-- Pairing each element with a property that is the same for all of them. -/
theorem map_pair_const {α β γ δ : Type} (f : α → γ) (g : α → δ) (x : δ) (l : List α)
    (l' : List β) (k : β → γ) (hf : l.map f = l'.map k) (hg : ∀ c ∈ l, g c = x) :
    l.map (fun c => (f c, g c)) = l'.map (fun s => (k s, x)) := by
  induction l generalizing l' with
  | nil =>
    cases l' with
    | nil => rfl
    | cons b l' => simp at hf
  | cons a l ih =>
    cases l' with
    | nil => simp at hf
    | cons b l' =>
      simp only [List.map_cons, List.cons.injEq] at hf ⊢
      refine ⟨?_, ih l' hf.2 (fun c hc => hg c (List.mem_cons_of_mem _ hc))⟩
      rw [hf.1, hg a (List.mem_cons_self _ _)]

/-! ## The escaping of a source -/

theorem replace_data (s : String) :
    (tagValueReplacer.Replace s).data = s.data.flatMap specEscapeChar := by
  unfold Replacer.Replace
  show (s.data.flatMap _) = s.data.flatMap specEscapeChar
  congr 1
  funext c
  unfold specEscapeChar
  by_cases h1 : c = '"'
  · subst h1; rfl
  · by_cases h2 : c = '*'
    · subst h2; rfl
    · have h1' : ¬ '"' = c := fun h => h1 h.symm
      have h2' : ¬ '*' = c := fun h => h2 h.symm
      simp [tagValueReplacer, Replacer.find, h1, h2, h1', h2']

/-- The replacer of the code computes the escaped form of the specification. -/
theorem replace_eq_specEscape (s : String) : tagValueReplacer.Replace s = specEscape s := by
  have h := replace_data s
  unfold specEscape
  rw [← h]

/-! ## The claims -/

/-- C1: `Write` submits one call per sample that is not NaN and none for a NaN sample:
the samples carried by the submitted calls, in order, are the samples of the request in
series order and sample order with the NaN samples removed, values and timestamps
unchanged; this holds for every writer (so for every sender) and every earlier history. -/
theorem C1_one_call_per_non_nan_sample (w : MetricWriter) (fx : Effects) (rq : WriteRequest) :
    (submitted fx (w.Write fx rq)).map Call.sample
      = nonNaN (rq.timeseries.flatMap (fun ts => ts.samples)) := by
  rw [submitted_Write]
  induction rq.timeseries with
  | nil => rfl
  | cons ts rest ih =>
    simp only [List.flatMap_cons, List.map_append, ih, seriesCalls_sample]
    simp [nonNaN]

/-- C1 at a request with NaN samples: of the four samples the two that are not NaN are
submitted, in order; the series that has a NaN sample only gets no call. -/
theorem C1_one_call_per_non_nan_sample_witness :
    (submitted Effects.none (scenarioWriter.Write Effects.none nanRequest)).map Call.sample
      = nonNaN (nanRequest.timeseries.flatMap (fun ts => ts.samples))
    ∧ nonNaN (nanRequest.timeseries.flatMap (fun ts => ts.samples))
      = [⟨f42, 1000⟩, ⟨f42, 1002⟩]
    ∧ fNaN.isNaN = true
    ∧ (submitted Effects.none (scenarioWriter.Write Effects.none nanRequest)).length = 2 :=
  ⟨C1_one_call_per_non_nan_sample scenarioWriter Effects.none nanRequest, by rfl, by decide,
    by rfl⟩

/-- C2: for every writer and series, the call submitted for each sample that is not NaN
carries a tag set whose content is the reference mapping of the specification. -/
theorem C2_tags_equal_reference (w : MetricWriter) (fx : Effects) (ts : TimeSeries) :
    (submitted fx (w.writeMetrics fx ts)).map (fun c => (c.sample, c.tags.get?))
      = (nonNaN ts.samples).map (fun s => (s, referenceTags w ts.labels)) := by
  rw [submitted_writeMetrics]
  exact map_pair_const Call.sample (fun c => c.tags.get?) (referenceTags w ts.labels)
    (seriesCalls w ts) (nonNaN ts.samples) id (by simpa using seriesCalls_sample w ts)
    (seriesCalls_tags w ts)

/-- C2 at the scenario of the specification: the one call carries exactly the tags
`method = GET` and `env = prod`. -/
theorem C2_tags_equal_reference_witness :
    (submitted Effects.none (scenarioWriter.writeMetrics Effects.none scenarioSeries)).map
        (fun c => (c.sample, c.tags.get?))
      = (nonNaN scenarioSeries.samples).map
          (fun s => (s, referenceTags scenarioWriter scenarioSeries.labels))
    ∧ (submitted Effects.none (scenarioWriter.writeMetrics Effects.none scenarioSeries)).map
        (fun c => c.tags.entries) = [[("env", "prod"), ("method", "GET")]]
    ∧ nonNaN scenarioSeries.samples = [⟨f42, 1000⟩] :=
  ⟨C2_tags_equal_reference scenarioWriter Effects.none scenarioSeries, by rfl, by rfl⟩

/-- C3: for every writer and series, the call submitted for each sample that is not NaN
carries the metric name of the specification built from the base name of the series. -/
theorem C3_metric_name (w : MetricWriter) (fx : Effects) (ts : TimeSeries) :
    (submitted fx (w.writeMetrics fx ts)).map (fun c => (c.sample, c.name))
      = (nonNaN ts.samples).map
          (fun s => (s, specMetricName w.pfx w.convertPaths (baseName ts.labels))) := by
  rw [submitted_writeMetrics]
  exact map_pair_const Call.sample (fun c => c.name) _
    (seriesCalls w ts) (nonNaN ts.samples) id (by simpa using seriesCalls_sample w ts)
    (seriesCalls_name w ts)

/-- C3 at the scenario of the specification: name head `myapp`, base name
`http_requests_total` and `convertPaths` on give `myapp.http.requests.total`. -/
theorem C3_metric_name_witness :
    (submitted Effects.none (scenarioWriter.writeMetrics Effects.none scenarioSeries)).map
        (fun c => (c.sample, c.name))
      = (nonNaN scenarioSeries.samples).map
          (fun s => (s, specMetricName scenarioWriter.pfx scenarioWriter.convertPaths
            (baseName scenarioSeries.labels)))
    ∧ baseName scenarioSeries.labels = "http_requests_total"
    ∧ specMetricName "myapp" true "http_requests_total" = "myapp.http.requests.total"
    ∧ (submitted Effects.none (scenarioWriter.writeMetrics Effects.none scenarioSeries)).map
        (fun c => c.name) = ["myapp.http.requests.total"] :=
  ⟨C3_metric_name scenarioWriter Effects.none scenarioSeries, by decide, by decide, by rfl⟩

/-- C4, the code at a series with two samples: with no static tags, labels
`__name__ = up`, `instance = h` and the samples `(42.0, 1)` and `(42.0, 2)`, the first
call has source `h` and the second call has the empty source. -/
theorem C4_second_sample_loses_source :
    nonNaN twoSampleSeries.samples = [⟨f42, 1⟩, ⟨f42, 2⟩]
    ∧ (submitted Effects.none ((staticWriter []).writeMetrics Effects.none twoSampleSeries)).map
        (fun c => (c.name, c.timestamp, c.source)) = [("up", 1, "h"), ("up", 2, "")] :=
  ⟨by rfl, by rfl⟩

/-- C5: `buildTags` on any map: an `instance` entry with a value `v` that is not empty
gives the escaped form of `v` as source (backslash and double quote for each double quote,
a hyphen for each asterisk, every other character kept); no `instance` entry, or one with
the empty value, gives the empty source. -/
theorem C5_source_of_buildTags (w : MetricWriter) (m : GoMap) :
    (∀ v, m.get? "instance" = some v → v ≠ "" → (w.buildTags m).1 = specEscape v)
    ∧ (m.get? "instance" = none ∨ m.get? "instance" = some "" → (w.buildTags m).1 = "") := by
  rw [buildTags_source, replace_eq_specEscape]
  refine ⟨fun v hv hne => ?_, fun h => ?_⟩
  · simp [TagFn.removeEmpty, hv, hne]
  · rcases h with h | h
    · simp [TagFn.removeEmpty, h]; rfl
    · simp [TagFn.removeEmpty, h]; rfl

/-- C5 at `instance = 10.0.0.1:9100`: the source is `10.0.0.1:9100`; at
`instance = a*b"c`: the source is `a-b\"c`; at the empty map and at `instance = ""`: the
source is empty. -/
theorem C5_source_of_buildTags_witness :
    (GoMap.ofList [("instance", "10.0.0.1:9100")]).get? "instance" = some "10.0.0.1:9100"
    ∧ "10.0.0.1:9100" ≠ ""
    ∧ (scenarioWriter.buildTags (GoMap.ofList [("instance", "10.0.0.1:9100")])).1
        = specEscape "10.0.0.1:9100"
    ∧ specEscape "10.0.0.1:9100" = "10.0.0.1:9100"
    ∧ (GoMap.ofList [("instance", "a*b\"c")]).get? "instance" = some "a*b\"c"
    ∧ "a*b\"c" ≠ ""
    ∧ (scenarioWriter.buildTags (GoMap.ofList [("instance", "a*b\"c")])).1
        = specEscape "a*b\"c"
    ∧ specEscape "a*b\"c" = "a-b\\\"c"
    ∧ (scenarioWriter.buildTags (GoMap.ofList [("instance", "a*b\"c")])).1 = "a-b\\\"c"
    ∧ GoMap.empty.get? "instance" = none
    ∧ (scenarioWriter.buildTags GoMap.empty).1 = ""
    ∧ (GoMap.ofList [("instance", "")]).get? "instance" = some ""
    ∧ (scenarioWriter.buildTags (GoMap.ofList [("instance", "")])).1 = "" :=
  ⟨by rfl, by decide,
    (C5_source_of_buildTags scenarioWriter (GoMap.ofList [("instance", "10.0.0.1:9100")])).1
      "10.0.0.1:9100" (by rfl) (by decide),
    by decide,
    by rfl, by decide,
    (C5_source_of_buildTags scenarioWriter (GoMap.ofList [("instance", "a*b\"c")])).1
      "a*b\"c" (by rfl) (by decide),
    by decide,
    by rfl,
    by rfl,
    (C5_source_of_buildTags scenarioWriter GoMap.empty).2 (Or.inl (by rfl)),
    by rfl,
    (C5_source_of_buildTags scenarioWriter (GoMap.ofList [("instance", "")])).2
      (Or.inr (by rfl))⟩

/-- C6: `tagValueReplacer.Replace` works character by character: the result is the
concatenation, over the characters of the input in order, of backslash and double quote
for a double quote, a hyphen for an asterisk, and the character itself otherwise. -/
theorem C6_replace_is_charwise (s : String) :
    tagValueReplacer.Replace s = String.mk (s.data.flatMap specEscapeChar) := by
  unfold Replacer.Replace
  congr 1
  congr 1
  funext c
  unfold specEscapeChar
  by_cases h1 : c = '"'
  · subst h1; rfl
  · by_cases h2 : c = '*'
    · subst h2; rfl
    · have h1' : ¬ '"' = c := fun h => h1 h.symm
      have h2' : ¬ '*' = c := fun h => h2 h.symm
      simp [tagValueReplacer, Replacer.find, h1, h2, h1', h2']

/-- C6 at the input of the specification: the five characters `a*b"c` give the six
characters `a-b\"c`. -/
theorem C6_replace_is_charwise_witness :
    tagValueReplacer.Replace "a*b\"c" = String.mk ("a*b\"c".data.flatMap specEscapeChar)
    ∧ "a*b\"c".data = ['a', '*', 'b', '"', 'c']
    ∧ (tagValueReplacer.Replace "a*b\"c").data = ['a', '-', 'b', '\\', '"', 'c'] :=
  ⟨C6_replace_is_charwise "a*b\"c", by decide, by decide⟩

/-- C7: static tags win: every call submitted for a series maps every static tag name
to its static value, whatever the labels of the series. -/
theorem C7_static_tags_win (w : MetricWriter) (fx : Effects) (ts : TimeSeries) (c : Call)
    (hc : c ∈ submitted fx (w.writeMetrics fx ts)) (k v : String)
    (hs : w.tags.get? k = some v) : c.tags.get? k = some v := by
  rw [submitted_writeMetrics] at hc
  rw [seriesCalls_tags w ts c hc]
  simp [referenceTags, TagFn.overlay, hs]

/-- C7 at static tags `{env: prod}` and a series with the label `env = dev`: the call is
submitted with `env = prod`. -/
theorem C7_static_tags_win_witness :
    (⟨"", f42, 1000, "", GoMap.ofList [("env", "prod")]⟩ : Call)
      ∈ submitted Effects.none
          ((staticWriter [("env", "prod")]).writeMetrics Effects.none
            (oneSampleSeries [⟨"env", "dev"⟩]))
    ∧ (staticWriter [("env", "prod")]).tags.get? "env" = some "prod"
    ∧ (GoMap.ofList [("env", "prod")]).get? "env" = some "prod" :=
  ⟨List.Mem.head _, by rfl,
    C7_static_tags_win (staticWriter [("env", "prod")]) Effects.none
      (oneSampleSeries [⟨"env", "dev"⟩]) ⟨"", f42, 1000, "", GoMap.ofList [("env", "prod")]⟩
      (List.Mem.head _) "env" "prod" (by rfl)⟩

/-- C8 as stated fails: with the static tag `env` configured with the empty value and a
series without labels, the call for the sample `(42.0, 1000)` carries the tag `env` with
the empty string as value. -/
theorem C8_counterexample :
    nonNaN (oneSampleSeries []).samples = [⟨f42, 1000⟩]
    ∧ (submitted Effects.none
        ((staticWriter [("env", "")]).writeMetrics Effects.none (oneSampleSeries []))).map
        (fun c => (c.sample, c.tags.get? "env")) = [(⟨f42, 1000⟩, some "")] :=
  ⟨by rfl, by rfl⟩

/-- C8 amended: a tag of a submitted call has the empty string as value only if the
static tags give that name the empty string; no tag that stems from a label is empty. -/
theorem C8_empty_value_only_from_static (w : MetricWriter) (fx : Effects) (ts : TimeSeries)
    (c : Call) (hc : c ∈ submitted fx (w.writeMetrics fx ts)) (k : String)
    (hk : c.tags.get? k = some "") : w.tags.get? k = some "" := by
  rw [submitted_writeMetrics] at hc
  rw [seriesCalls_tags w ts c hc] at hk
  exact finalize_empty_value _ _ k hk

/-- C8 amended, at static tags `{env: ""}` and a series without labels: the submitted
tag `env` is empty and is the static one. -/
theorem C8_empty_value_only_from_static_witness :
    (⟨"", f42, 1000, "", GoMap.ofList [("env", "")]⟩ : Call)
      ∈ submitted Effects.none
          ((staticWriter [("env", "")]).writeMetrics Effects.none (oneSampleSeries []))
    ∧ (GoMap.ofList [("env", "")]).get? "env" = some ""
    ∧ (staticWriter [("env", "")]).tags.get? "env" = some "" :=
  ⟨List.Mem.head _, by rfl,
    C8_empty_value_only_from_static (staticWriter [("env", "")]) Effects.none
      (oneSampleSeries []) ⟨"", f42, 1000, "", GoMap.ofList [("env", "")]⟩
      (List.Mem.head _) "env" (by rfl)⟩

/-- C9 as stated fails: with the static tag `instance = x` and a series with the label
`instance = h`, the call for the sample `(42.0, 1000)` has the source `h`, which is not
empty, and carries the tag `instance = x`. -/
theorem C9_counterexample :
    nonNaN (oneSampleSeries [⟨"instance", "h"⟩]).samples = [⟨f42, 1000⟩]
    ∧ (submitted Effects.none
        ((staticWriter [("instance", "x")]).writeMetrics Effects.none
          (oneSampleSeries [⟨"instance", "h"⟩]))).map
        (fun c => (c.sample, c.source, c.tags.get? "instance"))
      = [(⟨f42, 1000⟩, "h", some "x")]
    ∧ "h" ≠ "" :=
  ⟨by rfl, by rfl, by decide⟩

/-- C9 amended: whatever the source, the tag `instance` of a submitted call is the static
tag `instance`: present with the static value when the static tags have one, absent when
they have none. -/
theorem C9_instance_tag_only_from_static (w : MetricWriter) (fx : Effects) (ts : TimeSeries)
    (c : Call) (hc : c ∈ submitted fx (w.writeMetrics fx ts)) :
    c.tags.get? "instance" = w.tags.get? "instance" := by
  rw [submitted_writeMetrics] at hc
  rw [seriesCalls_tags w ts c hc]
  simp only [referenceTags, TagFn.overlay, TagFn.remove]
  cases w.tags.get? "instance" <;> simp

/-- C9 amended, at the scenario of the specification (no static tag `instance`): the call
has the source `10.0.0.1:9100` and no tag `instance`. -/
theorem C9_instance_tag_only_from_static_witness :
    (⟨"myapp.http.requests.total", f42, 1000, "10.0.0.1:9100",
        GoMap.ofList [("method", "GET"), ("env", "prod")]⟩ : Call)
      ∈ submitted Effects.none (scenarioWriter.writeMetrics Effects.none scenarioSeries)
    ∧ (GoMap.ofList [("method", "GET"), ("env", "prod")]).get? "instance"
        = scenarioWriter.tags.get? "instance"
    ∧ scenarioWriter.tags.get? "instance" = none :=
  ⟨List.Mem.head _,
    C9_instance_tag_only_from_static scenarioWriter Effects.none scenarioSeries
      ⟨"myapp.http.requests.total", f42, 1000, "10.0.0.1:9100",
        GoMap.ofList [("method", "GET"), ("env", "prod")]⟩ (List.Mem.head _),
    by rfl⟩

/-- C10 as stated fails: with the static tag `__name__ = x` and a series with the label
`__name__ = up`, the call for the sample `(42.0, 1000)` carries the tag `__name__ = x`. -/
theorem C10_counterexample :
    nonNaN (oneSampleSeries [⟨"__name__", "up"⟩]).samples = [⟨f42, 1000⟩]
    ∧ (submitted Effects.none
        ((staticWriter [("__name__", "x")]).writeMetrics Effects.none
          (oneSampleSeries [⟨"__name__", "up"⟩]))).map
        (fun c => (c.sample, c.name, c.tags.get? "__name__"))
      = [(⟨f42, 1000⟩, "up", some "x")] :=
  ⟨by rfl, by rfl⟩

/-- C10 amended: the tag `__name__` of a submitted call is the static tag `__name__`:
present with the static value when the static tags have one, absent when they have none;
the label `__name__` never becomes a tag. -/
theorem C10_name_tag_only_from_static (w : MetricWriter) (fx : Effects) (ts : TimeSeries)
    (c : Call) (hc : c ∈ submitted fx (w.writeMetrics fx ts)) :
    c.tags.get? "__name__" = w.tags.get? "__name__" := by
  rw [submitted_writeMetrics] at hc
  rw [seriesCalls_tags w ts c hc]
  simp only [referenceTags, TagFn.overlay, TagFn.remove, TagFn.removeEmpty]
  cases w.tags.get? "__name__" <;> simp

/-- C10 amended, at the scenario of the specification (no static tag `__name__`): the
call has no tag `__name__`. -/
theorem C10_name_tag_only_from_static_witness :
    (⟨"myapp.http.requests.total", f42, 1000, "10.0.0.1:9100",
        GoMap.ofList [("method", "GET"), ("env", "prod")]⟩ : Call)
      ∈ submitted Effects.none (scenarioWriter.writeMetrics Effects.none scenarioSeries)
    ∧ (GoMap.ofList [("method", "GET"), ("env", "prod")]).get? "__name__"
        = scenarioWriter.tags.get? "__name__"
    ∧ scenarioWriter.tags.get? "__name__" = none :=
  ⟨List.Mem.head _,
    C10_name_tag_only_from_static scenarioWriter Effects.none scenarioSeries
      ⟨"myapp.http.requests.total", f42, 1000, "10.0.0.1:9100",
        GoMap.ofList [("method", "GET"), ("env", "prod")]⟩ (List.Mem.head _),
    by rfl⟩

/-! ## Names after `convertPaths` -/

theorem stringsReplace_no_underscore (s : String) : '_' ∉ (stringsReplace s '_' '.').data := by
  simp only [stringsReplace, List.mem_map, not_exists, not_and]
  intro c _ h
  by_cases hc : c = '_'
  · rw [if_pos hc] at h; exact absurd h (by decide)
  · rw [if_neg hc] at h; exact hc h

theorem foldl_insert_some (cp : Bool) (labels : List Label) (f : TagFn) (k v : String)
    (h : (labels.foldl (fun f l => TagFn.insert (specTransform cp l.name) l.value f) f) k
      = some v) :
    f k = some v ∨ ∃ l ∈ labels, k = specTransform cp l.name := by
  induction labels generalizing f with
  | nil => exact Or.inl h
  | cons l rest ih =>
    rw [List.foldl_cons] at h
    rcases ih _ h with h' | ⟨l', hl', hk⟩
    · by_cases hkl : k = specTransform cp l.name
      · exact Or.inr ⟨l, List.mem_cons_self _ _, hkl⟩
      · simp only [TagFn.insert, hkl, if_false] at h'
        exact Or.inl h'
    · exact Or.inr ⟨l', List.mem_cons_of_mem _ hl', hk⟩

/-- With `convertPaths` on, a name that stems from a label and is not `__name__` has
no underscore. -/
theorem label_tag_no_underscore (labels : List Label) (k v : String)
    (h : specLabelContent true labels k = some v) (hk : k ≠ "__name__") : '_' ∉ k.data := by
  rcases foldl_insert_some true labels _ k v h with h' | ⟨l, _, hl⟩
  · simp at h'
  · by_cases hn : l.name = "__name__"
    · rw [hl, (specTransform_eq_name_iff true l.name).mpr hn] at hk
      exact absurd rfl hk
    · rw [hl]
      simp only [specTransform, hn, ne_eq, not_false_eq_true, and_self, if_true]
      exact stringsReplace_no_underscore l.name

theorem forall₂_dotForUnderscore (l : List Char) :
    List.Forall₂ dotForUnderscore (l.map (fun c => if c = '_' then '.' else c)) l := by
  induction l with
  | nil => exact List.Forall₂.nil
  | cons c cs ih => exact List.Forall₂.cons rfl ih

/-- C11 as stated fails: with `convertPaths` on and the static tag `data_center = eu`,
the call for the sample `(42.0, 1000)` of a series without labels carries the tag
`data_center`, whose name holds an underscore. -/
theorem C11_counterexample :
    dataCenterWriter.convertPaths = true
    ∧ nonNaN (oneSampleSeries []).samples = [⟨f42, 1000⟩]
    ∧ (submitted Effects.none
        (dataCenterWriter.writeMetrics Effects.none (oneSampleSeries []))).map
        (fun c => (c.sample, c.tags.get? "data_center")) = [(⟨f42, 1000⟩, some "eu")]
    ∧ '_' ∈ "data_center".data :=
  ⟨by rfl, by rfl, by rfl, by decide⟩

/-- C11 amended: with `convertPaths` on, a tag of a submitted call whose name holds an
underscore is a static tag, submitted under its configured name with its configured
value; the name of a tag that stems from a label holds no underscore. -/
theorem C11_underscore_only_from_static (w : MetricWriter) (hcp : w.convertPaths = true)
    (fx : Effects) (ts : TimeSeries) (c : Call)
    (hc : c ∈ submitted fx (w.writeMetrics fx ts)) (k v : String)
    (hk : c.tags.get? k = some v) (hu : '_' ∈ k.data) : w.tags.get? k = some v := by
  rw [submitted_writeMetrics] at hc
  rw [seriesCalls_tags w ts c hc] at hk
  simp only [referenceTags, TagFn.overlay] at hk
  cases hs : w.tags.get? k with
  | some v' =>
    rw [hs] at hk
    exact hk
  | none =>
    rw [hs, hcp] at hk
    exfalso
    simp only [TagFn.remove, TagFn.removeEmpty] at hk
    by_cases hi : k = "instance"
    · simp [hi] at hk
    · by_cases hn : k = "__name__"
      · simp [hn] at hk
      · simp only [hi, hn, if_false] at hk
        split at hk
        · simp at hk
        · exact label_tag_no_underscore ts.labels k v hk hn hu

/-- C11 amended, at the counterexample: the tag `data_center` of the call is the static
tag `data_center = eu`. -/
theorem C11_underscore_only_from_static_witness :
    dataCenterWriter.convertPaths = true
    ∧ (⟨"", f42, 1000, "", GoMap.ofList [("data_center", "eu")]⟩ : Call)
      ∈ submitted Effects.none
          (dataCenterWriter.writeMetrics Effects.none (oneSampleSeries []))
    ∧ (GoMap.ofList [("data_center", "eu")]).get? "data_center" = some "eu"
    ∧ '_' ∈ "data_center".data
    ∧ dataCenterWriter.tags.get? "data_center" = some "eu" :=
  ⟨by rfl, List.Mem.head _, by rfl, by decide,
    C11_underscore_only_from_static dataCenterWriter (by rfl) Effects.none
      (oneSampleSeries []) ⟨"", f42, 1000, "", GoMap.ofList [("data_center", "eu")]⟩
      (List.Mem.head _) "data_center" "eu" (by rfl) (by decide)⟩

/-- C12: with `convertPaths` on, the metric name of every submitted call holds no
underscore, is as long as the name the writer builds with `convertPaths` off, and differs
from it only where that name has an underscore, where it has a dot. -/
theorem C12_metric_name_converted (w : MetricWriter) (hcp : w.convertPaths = true)
    (fx : Effects) (ts : TimeSeries) (c : Call)
    (hc : c ∈ submitted fx (w.writeMetrics fx ts)) :
    '_' ∉ c.name.data
    ∧ c.name.data.length
        = (w.withoutConvertPaths.buildMetricName (baseName ts.labels)).data.length
    ∧ List.Forall₂ dotForUnderscore c.name.data
        (w.withoutConvertPaths.buildMetricName (baseName ts.labels)).data := by
  rw [submitted_writeMetrics] at hc
  rw [seriesCalls_name w ts c hc, buildMetricName_eq]
  have hplain : specMetricName w.withoutConvertPaths.pfx w.withoutConvertPaths.convertPaths
      (baseName ts.labels) = specMetricName w.pfx false (baseName ts.labels) := rfl
  rw [hplain, hcp]
  have hconv : specMetricName w.pfx true (baseName ts.labels)
      = stringsReplace (specMetricName w.pfx false (baseName ts.labels)) '_' '.' := by
    simp [specMetricName]
  rw [hconv]
  refine ⟨stringsReplace_no_underscore _, ?_, ?_⟩
  · simp [stringsReplace]
  · exact forall₂_dotForUnderscore _

/-- C12 at the name head `my_app` and the base name `http_requests_total`: the submitted
name is `my.app.http.requests.total`, as long as `my_app_http_requests_total`. -/
theorem C12_metric_name_converted_witness :
    myAppWriter.convertPaths = true
    ∧ (⟨"my.app.http.requests.total", f42, 1000, "10.0.0.1:9100",
        GoMap.ofList [("method", "GET")]⟩ : Call)
      ∈ submitted Effects.none (myAppWriter.writeMetrics Effects.none scenarioSeries)
    ∧ myAppWriter.withoutConvertPaths.buildMetricName (baseName scenarioSeries.labels)
        = "my_app_http_requests_total"
    ∧ '_' ∉ "my.app.http.requests.total".data
    ∧ "my.app.http.requests.total".data.length
        = (myAppWriter.withoutConvertPaths.buildMetricName
            (baseName scenarioSeries.labels)).data.length
    ∧ List.Forall₂ dotForUnderscore "my.app.http.requests.total".data
        (myAppWriter.withoutConvertPaths.buildMetricName
          (baseName scenarioSeries.labels)).data :=
  ⟨by rfl, List.Mem.head _, by decide,
    C12_metric_name_converted myAppWriter (by rfl) Effects.none scenarioSeries
      ⟨"my.app.http.requests.total", f42, 1000, "10.0.0.1:9100",
        GoMap.ofList [("method", "GET")]⟩ (List.Mem.head _)⟩

/-! ## The sender does not shape the calls -/

theorem loopCalls_withSender (w : MetricWriter) (sender : Sender) (fieldName : String)
    (tags : GoMap) (samples : List Sample) :
    loopCalls (w.withSender sender) fieldName tags samples
      = loopCalls w fieldName tags samples := by
  induction samples generalizing tags with
  | nil => rfl
  | cons value rest ih =>
    have hb : (w.withSender sender).buildTags tags = w.buildTags tags := rfl
    by_cases hnan : value.value.isNaN = true
    · simp only [loopCalls, hnan, if_true]
      exact ih tags
    · simp only [loopCalls, hnan, Bool.false_eq_true, if_false, hb]
      rw [ih]

theorem seriesCalls_withSender (w : MetricWriter) (sender : Sender) (ts : TimeSeries) :
    seriesCalls (w.withSender sender) ts = seriesCalls w ts := by
  unfold seriesCalls
  rw [loopCalls_withSender]
  rfl

/-- C13: the calls `Write` submits for a request do not depend on the sender, that is on
what any call returns, nor on the earlier history: a writer that differs in the sender
only submits the same calls, in the same order.  `Write` itself returns no error: its
result is the effects alone. -/
theorem C13_send_failures_isolated (w : MetricWriter) (sender : Sender) (fx fx' : Effects)
    (rq : WriteRequest) :
    submitted fx' ((w.withSender sender).Write fx' rq) = submitted fx (w.Write fx rq) := by
  rw [submitted_Write, submitted_Write]
  congr 1
  funext ts
  exact seriesCalls_withSender w sender ts

/-- C13 at a sender that refuses every call: the calls are those made with a sender that
accepts every call, and each refusal is logged as a warning. -/
theorem C13_send_failures_isolated_witness :
    submitted Effects.none ((scenarioWriter.withSender failSender).Write Effects.none nanRequest)
      = submitted Effects.none (scenarioWriter.Write Effects.none nanRequest)
    ∧ (submitted Effects.none
        ((scenarioWriter.withSender failSender).Write Effects.none nanRequest)).map
        (fun c => (c.name, c.sample)) =
        [("myapp.http.requests.total", ⟨f42, 1000⟩), ("myapp.http.requests.total", ⟨f42, 1002⟩)]
    ∧ ((scenarioWriter.withSender failSender).Write Effects.none nanRequest).warnings =
        ["Cannot send metric: myapp.http.requests.total. Reason: down. Skipping to next",
          "Cannot send metric: myapp.http.requests.total. Reason: down. Skipping to next"]
    ∧ (scenarioWriter.Write Effects.none nanRequest).warnings = [] :=
  ⟨C13_send_failures_isolated scenarioWriter failSender Effects.none Effects.none nanRequest,
    by rfl, by rfl, by rfl⟩

/-- C14: `HealthCheck` submits exactly one call, the probe named
`prom.gateway.healthcheck` with value 0, the current time, the empty source and the one
tag `test = test`, whatever the name head, static tags and `convertPaths` of the writer;
it returns `(200, "OK")` exactly when that call succeeds and `503` with the reason of the
failure otherwise. -/
theorem C14_health_check (w : MetricWriter) (now : Int) (fx : Effects) :
    submitted fx (w.HealthCheck now fx).2 = [healthProbe now]
    ∧ ((healthProbe now).name = "prom.gateway.healthcheck"
      ∧ (healthProbe now).value = ⟨0⟩
      ∧ (healthProbe now).timestamp = now
      ∧ (healthProbe now).source = ""
      ∧ (healthProbe now).tags.entries = [("test", "test")])
    ∧ ((w.HealthCheck now fx).1 = (200, "OK")
        ↔ w.sender.sendMetric fx.calls (healthProbe now) = none)
    ∧ (∀ err, w.sender.sendMetric fx.calls (healthProbe now) = some err →
        (w.HealthCheck now fx).1 = (503, err)) := by
  have hcall : (⟨"prom.gateway.healthcheck", ⟨0⟩, now, "", GoMap.ofList [("test", "test")]⟩
      : Call) = healthProbe now := rfl
  refine ⟨?_, ⟨rfl, rfl, rfl, rfl, rfl⟩, ?_, ?_⟩
  · unfold MetricWriter.HealthCheck
    simp only [hcall]
    cases w.sender.sendMetric fx.calls (healthProbe now) <;> simp [submitted]
  · unfold MetricWriter.HealthCheck
    simp only [hcall]
    cases w.sender.sendMetric fx.calls (healthProbe now) <;> simp
  · intro err herr
    unfold MetricWriter.HealthCheck
    simp only [hcall, herr]

/-- C14 at a sender that refuses every call and at one that accepts every call. -/
theorem C14_health_check_witness :
    failSender.sendMetric [] (healthProbe 1700000000) = some "down"
    ∧ ((scenarioWriter.withSender failSender).HealthCheck 1700000000 Effects.none).1
        = (503, "down")
    ∧ okSender.sendMetric [] (healthProbe 1700000000) = none
    ∧ (scenarioWriter.HealthCheck 1700000000 Effects.none).1 = (200, "OK")
    ∧ submitted Effects.none (scenarioWriter.HealthCheck 1700000000 Effects.none).2
        = [healthProbe 1700000000] :=
  ⟨by rfl,
    (C14_health_check (scenarioWriter.withSender failSender) 1700000000 Effects.none).2.2.2
      "down" (by rfl),
    by rfl,
    (C14_health_check scenarioWriter 1700000000 Effects.none).2.2.1.mpr (by rfl),
    (C14_health_check scenarioWriter 1700000000 Effects.none).1⟩

/-- C15: series are handled one by one: the calls for the series of `A` followed by those
of `B` are the calls for `A` followed by the calls for `B`, whatever the earlier history;
and the calls for a request are, series by series, the calls `writeMetrics` submits for
that series alone. -/
theorem C15_series_independent (w : MetricWriter) (fx fxA fxB : Effects)
    (A B : WriteRequest) :
    submitted fx (w.Write fx ⟨A.timeseries ++ B.timeseries⟩)
      = submitted fxA (w.Write fxA A) ++ submitted fxB (w.Write fxB B)
    ∧ submitted fx (w.Write fx A)
      = A.timeseries.flatMap
          (fun ts => submitted Effects.none (w.writeMetrics Effects.none ts)) := by
  refine ⟨?_, ?_⟩
  · simp [submitted_Write]
  · simp only [submitted_Write, submitted_writeMetrics]

/-- C15 at the request with NaN samples followed by a request with one sample. -/
theorem C15_series_independent_witness :
    (submitted Effects.none
        (scenarioWriter.Write Effects.none
          ⟨nanRequest.timeseries ++ tailRequest.timeseries⟩)
      = submitted Effects.none (scenarioWriter.Write Effects.none nanRequest)
        ++ submitted Effects.none (scenarioWriter.Write Effects.none tailRequest))
    ∧ (submitted Effects.none
        (scenarioWriter.Write Effects.none
          ⟨nanRequest.timeseries ++ tailRequest.timeseries⟩)).map
        (fun c => (c.sample, c.source))
      = [(⟨f42, 1000⟩, "10.0.0.1:9100"), (⟨f42, 1002⟩, ""), (⟨f42, 7⟩, "10.0.0.1:9100")] :=
  ⟨(C15_series_independent scenarioWriter Effects.none Effects.none Effects.none
      nanRequest tailRequest).1, by rfl⟩

/-! ## Base names -/

theorem foldl_baseName_ne (labels : List Label) (b : String)
    (h : labels.foldl (fun b l => if l.name = "__name__" then l.value else b) b ≠ "") :
    b ≠ "" ∨ ∃ l ∈ labels, l.name = "__name__" ∧ l.value ≠ "" := by
  induction labels generalizing b with
  | nil => exact Or.inl h
  | cons l rest ih =>
    rw [List.foldl_cons] at h
    rcases ih _ h with h' | ⟨l', hl', hn⟩
    · by_cases hl : l.name = "__name__"
      · rw [if_pos hl] at h'
        exact Or.inr ⟨l, List.mem_cons_self _ _, hl, h'⟩
      · rw [if_neg hl] at h'
        exact Or.inl h'
    · exact Or.inr ⟨l', List.mem_cons_of_mem _ hl', hn⟩

theorem foldl_baseName_empty (labels : List Label)
    (h : ∀ l ∈ labels, l.name = "__name__" → l.value = "") :
    labels.foldl (fun b l => if l.name = "__name__" then l.value else b) "" = "" := by
  induction labels with
  | nil => rfl
  | cons l rest ih =>
    rw [List.foldl_cons]
    have hrest := ih (fun l' hl' => h l' (List.mem_cons_of_mem _ hl'))
    by_cases hl : l.name = "__name__"
    · rw [if_pos hl, h l (List.mem_cons_self _ _) hl]
      exact hrest
    · rw [if_neg hl]
      exact hrest

theorem specMetricName_empty (cp : Bool) : specMetricName "" cp "" = "" := by
  cases cp <;> rfl

/-- C16: a submitted metric name that is not empty comes from a name head that is not
empty or from a label `__name__` with a value that is not empty; and a series whose label
`__name__` is absent or empty is still served: with the empty name head, each of its
samples that is not NaN is submitted under the empty metric name. -/
theorem C16_empty_name_passed_through (w : MetricWriter) (fx : Effects) (ts : TimeSeries) :
    (∀ c ∈ submitted fx (w.writeMetrics fx ts), c.name ≠ "" →
        w.pfx ≠ "" ∨ ∃ l ∈ ts.labels, l.name = "__name__" ∧ l.value ≠ "")
    ∧ (w.pfx = "" → (∀ l ∈ ts.labels, l.name = "__name__" → l.value = "") →
        (submitted fx (w.writeMetrics fx ts)).map (fun c => (c.sample, c.name))
          = (nonNaN ts.samples).map (fun s => (s, ""))) := by
  rw [submitted_writeMetrics]
  refine ⟨fun c hc hne => ?_, fun hp hl => ?_⟩
  · rw [seriesCalls_name w ts c hc] at hne
    by_cases hp : w.pfx = ""
    · right
      have hb : baseName ts.labels ≠ "" := by
        intro hb
        rw [hp, hb, specMetricName_empty] at hne
        exact hne rfl
      rcases foldl_baseName_ne ts.labels "" hb with h | h
      · exact absurd rfl h
      · exact h
    · exact Or.inl hp
  · have hname : ∀ c ∈ seriesCalls w ts, c.name = "" := by
      intro c hc
      rw [seriesCalls_name w ts c hc, hp]
      have hb : baseName ts.labels = "" := foldl_baseName_empty ts.labels hl
      rw [hb, specMetricName_empty]
    exact map_pair_const Call.sample (fun c => c.name) "" (seriesCalls w ts)
      (nonNaN ts.samples) id (by simpa using seriesCalls_sample w ts) hname

/-- C16 at a writer without name head and a series with the one label `job = x`: the
sample `(42.0, 1000)` is submitted under the empty metric name. -/
theorem C16_empty_name_passed_through_witness :
    (staticWriter []).pfx = ""
    ∧ baseName (oneSampleSeries [⟨"job", "x"⟩]).labels = ""
    ∧ (submitted Effects.none
        ((staticWriter []).writeMetrics Effects.none (oneSampleSeries [⟨"job", "x"⟩]))).map
        (fun c => (c.sample, c.name))
      = (nonNaN (oneSampleSeries [⟨"job", "x"⟩]).samples).map (fun s => (s, ""))
    ∧ (nonNaN (oneSampleSeries [⟨"job", "x"⟩]).samples).map (fun s => (s, ""))
      = [(⟨f42, 1000⟩, "")] :=
  ⟨by rfl, by rfl,
    (C16_empty_name_passed_through (staticWriter []) Effects.none
      (oneSampleSeries [⟨"job", "x"⟩])).2 (by rfl) (by decide),
    by rfl⟩

/-! ## Sources across the samples of a series -/

theorem replace_empty : tagValueReplacer.Replace "" = "" := rfl

theorem finalize_instance (s f : TagFn) : TagFn.finalize s f "instance" = s "instance" := by
  simp only [TagFn.finalize, TagFn.overlay, TagFn.remove]
  cases s "instance" <;> simp

/-- Once the map has no `instance` entry and the static tags have none either, every call
of the sample loop has the empty source. -/
theorem loopCalls_source_empty (w : MetricWriter) (hs : w.tags.get? "instance" = none)
    (fieldName : String) (tags : GoMap) (ht : tags.get? "instance" = none)
    (samples : List Sample) :
    (loopCalls w fieldName tags samples).map (fun c => (c.sample, c.source))
      = (nonNaN samples).map (fun s => (s, "")) := by
  induction samples generalizing tags with
  | nil => rfl
  | cons value rest ih =>
    by_cases hnan : value.value.isNaN = true
    · simpa [loopCalls, nonNaN, hnan] using ih tags ht
    · have hnext : (w.buildTags tags).2.get? "instance" = none := by
        rw [buildTags_get?, finalize_instance, hs]
      have hsrc : (w.buildTags tags).1 = "" := by
        rw [buildTags_source]
        simp [TagFn.removeEmpty, ht, replace_empty]
      have := ih (w.buildTags tags).2 hnext
      simp only [nonNaN, Call.sample] at this
      simp [loopCalls, nonNaN, hnan, this, hsrc, Call.sample]

/-- With no static tag `instance`, a sample loop that starts with `instance = v`, `v` not
empty, gives the escaped `v` to its first call and the empty source to the later ones. -/
theorem loopCalls_source_first (w : MetricWriter) (hs : w.tags.get? "instance" = none)
    (fieldName : String) (tags : GoMap) (v : String) (ht : tags.get? "instance" = some v)
    (hne : v ≠ "") (samples : List Sample) :
    (loopCalls w fieldName tags samples).map (fun c => (c.sample, c.source))
      = firstSourceThenEmpty v (nonNaN samples) := by
  induction samples with
  | nil => rfl
  | cons value rest ih =>
    by_cases hnan : value.value.isNaN = true
    · simpa [loopCalls, nonNaN, hnan] using ih
    · have hnext : (w.buildTags tags).2.get? "instance" = none := by
        rw [buildTags_get?, finalize_instance, hs]
      have hsrc : (w.buildTags tags).1 = specEscape v := by
        rw [buildTags_source, replace_eq_specEscape]
        simp [TagFn.removeEmpty, ht, hne]
      have := loopCalls_source_empty w hs fieldName (w.buildTags tags).2 hnext rest
      simp only [nonNaN, Call.sample] at this
      simp [loopCalls, nonNaN, hnan, this, hsrc, Call.sample, firstSourceThenEmpty]

/-- C17: with no static tag `instance`, for a series whose label loop leaves `instance`
with a value `v` that is not empty, the first sample that is not NaN is submitted with
the escaped form of `v` as source (backslash and double quote for each double quote, a
hyphen for each asterisk) and every later one with the empty source. -/
theorem C17_source_only_on_first_sample (w : MetricWriter) (fx : Effects) (ts : TimeSeries)
    (v : String) (hs : w.tags.get? "instance" = none)
    (hv : (labelTags w ts.labels).get? "instance" = some v) (hne : v ≠ "") :
    (submitted fx (w.writeMetrics fx ts)).map (fun c => (c.sample, c.source))
      = firstSourceThenEmpty v (nonNaN ts.samples) := by
  rw [submitted_writeMetrics]
  have ht : ((labelTags w ts.labels).delete "__name__").get? "instance" = some v := by
    rw [GoMap.get?_delete, if_neg (by decide), hv]
  exact loopCalls_source_first w hs _ _ v ht hne ts.samples

/-- C17 at the series with the label `instance = a*b"c` and two samples: the sources are
`a-b\"c` and then the empty string. -/
theorem C17_source_only_on_first_sample_witness :
    (staticWriter []).tags.get? "instance" = none
    ∧ (labelTags (staticWriter []) quotedSeries.labels).get? "instance" = some "a*b\"c"
    ∧ "a*b\"c" ≠ ""
    ∧ (submitted Effects.none
        ((staticWriter []).writeMetrics Effects.none quotedSeries)).map
        (fun c => (c.sample, c.source))
      = firstSourceThenEmpty "a*b\"c" (nonNaN quotedSeries.samples)
    ∧ firstSourceThenEmpty "a*b\"c" (nonNaN quotedSeries.samples)
      = [(⟨f42, 1⟩, "a-b\\\"c"), (⟨f42, 2⟩, "")]
    ∧ (submitted Effects.none
        ((staticWriter []).writeMetrics Effects.none quotedSeries)).map
        (fun c => (c.sample, c.source))
      = [(⟨f42, 1⟩, "a-b\\\"c"), (⟨f42, 2⟩, "")] :=
  ⟨by rfl, by rfl, by decide,
    C17_source_only_on_first_sample (staticWriter []) Effects.none quotedSeries "a*b\"c"
      (by rfl) (by rfl) (by decide),
    by rfl, by rfl⟩

/-- C18: `buildTags` applied to the map `buildTags` returned gives a map with the same
content, for any static tags and any map. -/
theorem C18_buildTags_idempotent (w : MetricWriter) (m : GoMap) :
    (w.buildTags (w.buildTags m).2).2.get? = (w.buildTags m).2.get? := by
  rw [buildTags_get?, buildTags_get?, finalize_idem]

/-- C18 at static tags `{instance: s, blank: ""}` and the map `{instance: h, a: ""}`: the
two maps have the same entries, while the first source is `h` and the second is `s`. -/
theorem C18_buildTags_idempotent_witness :
    ((staticWriter [("instance", "s"), ("blank", "")]).buildTags
        ((staticWriter [("instance", "s"), ("blank", "")]).buildTags
          (GoMap.ofList [("instance", "h"), ("a", "")])).2).2.get?
      = ((staticWriter [("instance", "s"), ("blank", "")]).buildTags
          (GoMap.ofList [("instance", "h"), ("a", "")])).2.get?
    ∧ ((staticWriter [("instance", "s"), ("blank", "")]).buildTags
        ((staticWriter [("instance", "s"), ("blank", "")]).buildTags
          (GoMap.ofList [("instance", "h"), ("a", "")])).2).2.entries
      = [("instance", "s"), ("blank", "")]
    ∧ ((staticWriter [("instance", "s"), ("blank", "")]).buildTags
          (GoMap.ofList [("instance", "h"), ("a", "")])).2.entries
      = [("instance", "s"), ("blank", "")]
    ∧ ((staticWriter [("instance", "s"), ("blank", "")]).buildTags
          (GoMap.ofList [("instance", "h"), ("a", "")])).1 = "h"
    ∧ ((staticWriter [("instance", "s"), ("blank", "")]).buildTags
        ((staticWriter [("instance", "s"), ("blank", "")]).buildTags
          (GoMap.ofList [("instance", "h"), ("a", "")])).2).1 = "s" :=
  ⟨C18_buildTags_idempotent (staticWriter [("instance", "s"), ("blank", "")])
      (GoMap.ofList [("instance", "h"), ("a", "")]),
    by rfl, by rfl, by rfl, by rfl⟩

/-! ## Escaped sources -/

theorem escaped_no_asterisk (l : List Char) : '*' ∉ l.flatMap specEscapeChar := by
  intro h
  rcases List.mem_flatMap.mp h with ⟨c, _, hc⟩
  unfold specEscapeChar at hc
  by_cases h1 : c = '"'
  · rw [if_pos h1] at hc
    exact absurd hc (by decide)
  · rw [if_neg h1] at hc
    by_cases h2 : c = '*'
    · rw [if_pos h2] at hc
      exact absurd hc (by decide)
    · rw [if_neg h2] at hc
      exact h2 (List.mem_singleton.mp hc).symm

theorem escaped_quotesPreceded (l : List Char) (prev : Option Char) :
    quotesPreceded prev (l.flatMap specEscapeChar) = true := by
  induction l generalizing prev with
  | nil => rfl
  | cons c cs ih =>
    rw [List.flatMap_cons]
    by_cases h1 : c = '"'
    · have hc : specEscapeChar c = ['\\', '"'] := by simp [specEscapeChar, h1]
      rw [hc]
      simp [quotesPreceded, ih]
    · by_cases h2 : c = '*'
      · have hc : specEscapeChar c = ['-'] := by simp [specEscapeChar, h2]
        rw [hc]
        simp [quotesPreceded, ih]
      · have hc : specEscapeChar c = [c] := by simp [specEscapeChar, h1, h2]
        rw [hc]
        simp [quotesPreceded, ih, h1]

theorem loopCalls_source (w : MetricWriter) (fieldName : String) (tags : GoMap)
    (samples : List Sample) (c : Call) (hc : c ∈ loopCalls w fieldName tags samples) :
    ∃ x, c.source = tagValueReplacer.Replace x := by
  induction samples generalizing tags with
  | nil => simp [loopCalls] at hc
  | cons value rest ih =>
    by_cases hnan : value.value.isNaN = true
    · simp only [loopCalls, hnan, if_true] at hc
      exact ih tags hc
    · simp only [loopCalls, hnan, Bool.false_eq_true, if_false, List.mem_cons] at hc
      rcases hc with hc | hc
      · rw [hc]
        exact ⟨_, buildTags_source w tags⟩
      · exact ih _ hc

/-- C19: the source of every call `Write` submits holds no asterisk, and every double
quote in it comes right after a backslash, whether the source stems from a label or from
a static tag `instance`. -/
theorem C19_source_is_escaped (w : MetricWriter) (fx : Effects) (rq : WriteRequest)
    (c : Call) (hc : c ∈ submitted fx (w.Write fx rq)) :
    '*' ∉ c.source.data ∧ quotesPreceded none c.source.data = true := by
  rw [submitted_Write] at hc
  rcases List.mem_flatMap.mp hc with ⟨ts, _, hts⟩
  rcases loopCalls_source w _ _ ts.samples c hts with ⟨x, hx⟩
  rw [hx, replace_data]
  exact ⟨escaped_no_asterisk x.data, escaped_quotesPreceded x.data none⟩

/-- C19 at the static tag `instance = s*"t` and a series with the label
`instance = a*b"c` and two samples: the first source, from the label, is `a-b\"c`; the
second, from the static tag, is `s-\"t`. -/
theorem C19_source_is_escaped_witness :
    (submitted Effects.none
        ((staticWriter [("instance", "s*\"t")]).Write Effects.none ⟨[quotedSeries]⟩)).map
        (fun c => c.source) = ["a-b\\\"c", "s-\\\"t"]
    ∧ (⟨"", f42, 2, "s-\\\"t", GoMap.ofList [("instance", "s*\"t")]⟩ : Call)
      ∈ submitted Effects.none
          ((staticWriter [("instance", "s*\"t")]).Write Effects.none ⟨[quotedSeries]⟩)
    ∧ '*' ∉ "s-\\\"t".data
    ∧ quotesPreceded none "s-\\\"t".data = true
    ∧ quotesPreceded none "a*b\"c".data = false :=
  ⟨by rfl, List.Mem.tail _ (List.Mem.head _),
    (C19_source_is_escaped (staticWriter [("instance", "s*\"t")]) Effects.none
      ⟨[quotedSeries]⟩ ⟨"", f42, 2, "s-\\\"t", GoMap.ofList [("instance", "s*\"t")]⟩
      (List.Mem.tail _ (List.Mem.head _))).1,
    (C19_source_is_escaped (staticWriter [("instance", "s*\"t")]) Effects.none
      ⟨[quotedSeries]⟩ ⟨"", f42, 2, "s-\\\"t", GoMap.ofList [("instance", "s*\"t")]⟩
      (List.Mem.tail _ (List.Mem.head _))).2,
    by decide⟩

end Backend
